import Mathlib

/-!
# Verification of `dfget/util/file_util.go`

A shallow embedding of the filesystem utility module of the Dragonfly client
(`CreateDirectory`, `DeleteFile`, `DeleteFiles`, `OpenFile`, `CopyFile`,
`MoveFile`, `MoveFileAfterCheckMd5`, `PathExist`, `IsDir`, `IsRegularFile`,
`Md5Sum`), together with proofs of the module's observable contract.

The filesystem is modelled as an association list from path strings to nodes.
A node is a regular file (content bytes, permission bits, and a `readable`
flag that models open/read failures such as permission errors), a directory,
or a `special` entry (device, socket, ...: a path that exists but is neither
a regular file nor a directory).  All functions are state passing: they take
the filesystem and return either an error (mirroring the error kinds the Go
code produces with `fmt.Errorf`) or the updated filesystem, so an error
result leaves the filesystem unchanged by construction.

The MD5 digest (Go's `crypto/md5` + `fmt.Sprintf("%x", ...)` as used by
`Md5Sum`) is implemented in full (RFC 1321) over byte lists, with 32-bit
words represented as `Nat` reduced modulo `2 ^ 32`.
-/

set_option maxRecDepth 40000

namespace FileUtil

/-! ## MD5 (Go `crypto/md5`, RFC 1321) -/

/-- Addition of 32-bit words. -/
def wadd (a b : Nat) : Nat := (a + b) % 4294967296

/-- Bitwise complement of a 32-bit word. -/
def wnot (a : Nat) : Nat := 4294967295 - a % 4294967296

/-- Left rotation of a 32-bit word by `s` bits (`0 < s < 32`). -/
def rotl (x s : Nat) : Nat :=
  (x % 4294967296 * 2 ^ s + x % 4294967296 / 2 ^ (32 - s)) % 4294967296

/-- The 64 sine-derived constants `T[i]` of RFC 1321. -/
def md5K : List Nat :=
  [0xd76aa478, 0xe8c7b756, 0x242070db, 0xc1bdceee,
   0xf57c0faf, 0x4787c62a, 0xa8304613, 0xfd469501,
   0x698098d8, 0x8b44f7af, 0xffff5bb1, 0x895cd7be,
   0x6b901122, 0xfd987193, 0xa679438e, 0x49b40821,
   0xf61e2562, 0xc040b340, 0x265e5a51, 0xe9b6c7aa,
   0xd62f105d, 0x02441453, 0xd8a1e681, 0xe7d3fbc8,
   0x21e1cde6, 0xc33707d6, 0xf4d50d87, 0x455a14ed,
   0xa9e3e905, 0xfcefa3f8, 0x676f02d9, 0x8d2a4c8a,
   0xfffa3942, 0x8771f681, 0x6d9d6122, 0xfde5380c,
   0xa4beea44, 0x4bdecfa9, 0xf6bb4b60, 0xbebfbc70,
   0x289b7ec6, 0xeaa127fa, 0xd4ef3085, 0x04881d05,
   0xd9d4d039, 0xe6db99e5, 0x1fa27cf8, 0xc4ac5665,
   0xf4292244, 0x432aff97, 0xab9423a7, 0xfc93a039,
   0x655b59c3, 0x8f0ccc92, 0xffeff47d, 0x85845dd1,
   0x6fa87e4f, 0xfe2ce6e0, 0xa3014314, 0x4e0811a1,
   0xf7537e82, 0xbd3af235, 0x2ad7d2bb, 0xeb86d391]

/-- The per-step rotation amounts of RFC 1321. -/
def md5S : List Nat :=
  [7, 12, 17, 22, 7, 12, 17, 22, 7, 12, 17, 22, 7, 12, 17, 22,
   5, 9, 14, 20, 5, 9, 14, 20, 5, 9, 14, 20, 5, 9, 14, 20,
   4, 11, 16, 23, 4, 11, 16, 23, 4, 11, 16, 23, 4, 11, 16, 23,
   6, 10, 15, 21, 6, 10, 15, 21, 6, 10, 15, 21, 6, 10, 15, 21]

/-- The round function (`F`, `G`, `H`, `I` depending on the step index). -/
def md5F (i b c d : Nat) : Nat :=
  if i < 16 then (b &&& c) ||| (wnot b &&& d)
  else if i < 32 then (d &&& b) ||| (wnot d &&& c)
  else if i < 48 then b ^^^ c ^^^ d
  else c ^^^ (b ||| wnot d)

/-- The message-word schedule of RFC 1321. -/
def md5G (i : Nat) : Nat :=
  if i < 16 then i
  else if i < 32 then (5 * i + 1) % 16
  else if i < 48 then (3 * i + 5) % 16
  else 7 * i % 16

/-- The four-word running state of the MD5 accumulator. -/
structure Md5State where
  a : Nat
  b : Nat
  c : Nat
  d : Nat
deriving DecidableEq

/-- One of the 64 steps of an MD5 block computation; `m` is the current
16-word message block. -/
def md5Step (m : List Nat) (st : Md5State) (i : Nat) : Md5State :=
  let f := wadd (wadd (wadd st.a (md5F i st.b st.c st.d)) (md5K.getD i 0))
    (m.getD (md5G i) 0)
  ⟨st.d, wadd st.b (rotl f (md5S.getD i 0)), st.b, st.c⟩

/-- Little-endian decoding of a 64-byte block into 16 words. -/
def wordsOfBytesLE : List Nat → List Nat
  | b0 :: b1 :: b2 :: b3 :: rest =>
    (b0 + 256 * b1 + 65536 * b2 + 16777216 * b3) :: wordsOfBytesLE rest
  | _ => []

/-- Process one 64-byte block. -/
def md5Block (st : Md5State) (block : List Nat) : Md5State :=
  let m := wordsOfBytesLE block
  let r := (List.range 64).foldl (md5Step m) st
  ⟨wadd st.a r.a, wadd st.b r.b, wadd st.c r.c, wadd st.d r.d⟩

/-- Process the padded message 64 bytes at a time.  The `Nat` argument is
fuel that makes the recursion structural; every caller supplies enough fuel
for it never to run out (each round consumes at least one byte). -/
def md5Blocks : Nat → Md5State → List Nat → Md5State
  | 0, st, _ => st
  | _ + 1, st, [] => st
  | fuel + 1, st, l => md5Blocks fuel (md5Block st (l.take 64)) (l.drop 64)

/-- The `count` least significant bytes of `n`, little endian. -/
def bytesLE (n : Nat) : Nat → List Nat
  | 0 => []
  | count + 1 => n % 256 :: bytesLE (n / 256) count

/-- RFC 1321 padding: a `0x80` byte, zeros up to 56 mod 64, then the
bit length as a little-endian 64-bit quantity. -/
def md5Pad (msg : List Nat) : List Nat :=
  msg ++ 0x80 :: List.replicate ((119 - msg.length % 64) % 64) 0 ++
    bytesLE (8 * msg.length) 8

/-- The MD5 initialization vector. -/
def md5Init : Md5State := ⟨0x67452301, 0xefcdab89, 0x98badcfe, 0x10325476⟩

/-- The 16-byte MD5 digest of a byte list. -/
def md5Bytes (msg : List Nat) : List Nat :=
  let padded := md5Pad msg
  let st := md5Blocks (padded.length + 1) md5Init padded
  bytesLE st.a 4 ++ bytesLE st.b 4 ++ bytesLE st.c 4 ++ bytesLE st.d 4

/-- Lowercase hexadecimal digit for `n < 16`. -/
def hexChar (n : Nat) : Char :=
  if n < 10 then Char.ofNat (48 + n) else Char.ofNat (87 + n)

/-- Two lowercase hex digits of a byte (Go `fmt.Sprintf("%x", ...)` on a
byte slice prints each byte as exactly two digits). -/
def byteHex (b : Nat) : List Char := [hexChar (b / 16 % 16), hexChar (b % 16)]

/-- Lowercase hex encoding of the MD5 digest of a byte list: the digest
string Go's `Md5Sum` produces for a file with those content bytes. -/
def md5Hex (msg : List Nat) : String :=
  String.mk (((md5Bytes msg).map byteHex).flatten)

/-- The bytes of an ASCII string (test inputs here are ASCII, where UTF-8
bytes and code points agree). -/
def strBytes (s : String) : List Nat := s.data.map Char.toNat

/-- Recognizer for the characters `0-9a-f`. -/
def isLowerHexDigit (c : Char) : Bool :=
  (48 ≤ c.toNat && c.toNat ≤ 57) || (97 ≤ c.toNat && c.toNat ≤ 102)

/-! ## The filesystem model -/

/-- A filesystem node.  `file` carries the content bytes, the permission
bits, and a `readable` flag: `readable = false` models a regular file whose
bytes cannot be obtained (open or read fails, e.g. for permission reasons).
`special` is an entry that exists but is neither a regular file nor a
directory (device, socket, symlink, ...). -/
inductive Node where
  | file (content : List Nat) (perm : Nat) (readable : Bool)
  | dir (perm : Nat)
  | special
deriving DecidableEq

/-- A filesystem: a finite map from path strings to nodes, as an
association list (first binding wins). -/
abbrev FS := List (String × Node)

/-- `os.Stat`: look a path up.  `none` plays the role of the
`os.IsNotExist` error. -/
def fsLookup (fs : FS) (p : String) : Option Node :=
  match fs with
  | [] => none
  | (q, n) :: rest => if q = p then some n else fsLookup rest p

/-- Remove every binding of a path (`os.Remove` on the model). -/
def fsErase (fs : FS) (p : String) : FS :=
  match fs with
  | [] => []
  | (q, n) :: rest => if q = p then fsErase rest p else (q, n) :: fsErase rest p

/-- Bind a path to a node, dropping any previous binding. -/
def fsInsert (fs : FS) (p : String) (n : Node) : FS := (p, n) :: fsErase fs p

/-! ## The Go functions of `file_util.go` -/

/-- `BufferSize` (`file_util.go:29`): the fixed read/write buffer size. -/
def BufferSize : Nat := 8 * 1024 * 1024

/-- The error kinds produced by the module (`fmt.Errorf` messages in the Go
code, or errors of the underlying OS calls passed through unchanged). -/
inductive FsError where
  | notADirectory (path : String)
  | notExist (path : String)
  | isDirectory (path : String)
  | notRegularFile (path : String)
  | destinationExists (path : String)
  | digestMismatch (path : String)
  | permissionDenied (path : String)
  | osError (path : String)
deriving DecidableEq

/-- `PathExist` (`file_util.go:158`): true iff `os.Stat` succeeds. -/
def PathExist (fs : FS) (name : String) : Bool := (fsLookup fs name).isSome

/-- `IsDir` (`file_util.go:164`): any stat error folds into `false`. -/
def IsDir (fs : FS) (name : String) : Bool :=
  match fsLookup fs name with
  | some (.dir _) => true
  | _ => false

/-- `IsRegularFile` (`file_util.go:173`): any stat error folds into
`false`. -/
def IsRegularFile (fs : FS) (name : String) : Bool :=
  match fsLookup fs name with
  | some (.file _ _ _) => true
  | _ => false

/-- The characters strictly before the last `'/'` of a character list, or
`none` if there is no `'/'`. -/
def beforeLastSlash : List Char → Option (List Char)
  | [] => none
  | c :: rest =>
    match beforeLastSlash rest with
    | some b => some (c :: b)
    | none => if c = '/' then some [] else none

/-- Go's `filepath.Dir` (for the slash-separated paths the module
manipulates): everything before the last separator; `"."` when there is no
separator; `"/"` when the path is an entry of the root directory. -/
def filepathDir (p : String) : String :=
  match beforeLastSlash p.data with
  | none => "."
  | some [] => "/"
  | some b => String.mk b

/-- Go's `os.MkdirAll`: if the path is a directory nothing happens, if it
exists as a non-directory that is an `ENOTDIR` error, and otherwise the
parent is created recursively before the path itself.  The `Nat` argument
is fuel making the recursion structural; every parent is a strictly shorter
string, so the fuel the wrapper `mkdirAll` supplies never runs out (the
out-of-fuel branch is an unreachable error). -/
def mkdirAllFuel : Nat → FS → String → Nat → Except FsError FS
  | 0, _, path, _ => .error (.osError path)
  | fuel + 1, fs, path, perm =>
    match fsLookup fs path with
    | some (.dir _) => .ok fs
    | some _ => .error (.notADirectory path)
    | none =>
      match beforeLastSlash path.data with
      | none => .ok (fsInsert fs path (.dir perm))
      | some [] => .ok (fsInsert fs path (.dir perm))
      | some (c :: cs) =>
        match mkdirAllFuel fuel fs (String.mk (c :: cs)) perm with
        | .error e => .error e
        | .ok fs1 => .ok (fsInsert fs1 path (.dir perm))

/-- Go's `os.MkdirAll` with enough fuel for the whole parent chain. -/
def mkdirAll (fs : FS) (path : String) (perm : Nat) : Except FsError FS :=
  mkdirAllFuel (path.data.length + 1) fs path perm

/-- `CreateDirectory` (`file_util.go:32-41`): recursive directory creation
with permission `0o755`; an existing non-directory is the
`not a directory` error, an existing directory is silent success. -/
def CreateDirectory (fs : FS) (dirPath : String) : Except FsError FS :=
  match fsLookup fs dirPath with
  | none => mkdirAll fs dirPath 0o755
  | some (.dir _) => .ok fs
  | some _ => .error (.notADirectory dirPath)

/-- `DeleteFile` (`file_util.go:44-52`): delete a file, never a
directory. -/
def DeleteFile (fs : FS) (filePath : String) : Except FsError FS :=
  if !PathExist fs filePath then .error (.notExist filePath)
  else if IsDir fs filePath then .error (.isDirectory filePath)
  else .ok (fsErase fs filePath)

/-- `DeleteFiles` (`file_util.go:55-64`): best-effort bulk delete; the Go
loop `continue`s on a per-path error, so no error is ever reported and the
result is just the updated filesystem. -/
def DeleteFiles (fs : FS) (filePaths : List String) : FS :=
  match filePaths with
  | [] => fs
  | f :: rest =>
    match DeleteFile fs f with
    | .error _ => DeleteFiles fs rest
    | .ok fs1 => DeleteFiles fs1 rest

/-- The open-mode flags the module uses (`os.O_RDONLY` and
`os.O_WRONLY|os.O_TRUNC|os.O_CREATE`). -/
structure OpenFlags where
  write : Bool
  create : Bool
  trunc : Bool
deriving DecidableEq

/-- `os.O_RDONLY`. -/
def oRdOnly : OpenFlags := ⟨false, false, false⟩

/-- `os.O_WRONLY ||| os.O_TRUNC ||| os.O_CREATE`. -/
def oWrCreateTrunc : OpenFlags := ⟨true, true, true⟩

/-- Go's `os.OpenFile` on the model.  A successful open returns the updated
filesystem together with the bytes visible through the handle (the whole
content for a read handle; the content after truncation for a write
handle).  Opening an unreadable file (or a directory or special node) for
reading fails, which also stands for Go's "open succeeds but the stream
cannot be fully read" failure: the module's only reader, `Md5Sum`,
collapses both into the same empty-string result. -/
def osOpenFile (fs : FS) (path : String) (flag : OpenFlags) (perm : Nat) :
    Except FsError (FS × List Nat) :=
  match fsLookup fs path with
  | some (.file c fperm r) =>
    if flag.write then
      let c1 := if flag.trunc then [] else c
      .ok (fsInsert fs path (.file c1 fperm r), c1)
    else if r then .ok (fs, c)
    else .error (.permissionDenied path)
  | some (.dir _) =>
    if flag.write then .error (.isDirectory path)
    else .error (.permissionDenied path)
  | some .special => .error (.osError path)
  | none =>
    if flag.create then .ok (fsInsert fs path (.file [] perm true), [])
    else .error (.notExist path)

/-- `OpenFile` (`file_util.go:68-81`): open a path, first creating the
parent directory chain when the path does not exist and its parent is not
the current-directory sentinel `"."`. -/
def OpenFile (fs : FS) (path : String) (flag : OpenFlags) (perm : Nat) :
    Except FsError (FS × List Nat) :=
  if PathExist fs path then osOpenFile fs path flag perm
  else
    let pathDir := filepathDir path
    if pathDir = "." then osOpenFile fs path flag perm
    else
      match CreateDirectory fs pathDir with
      | .error e => .error e
      | .ok fs1 => osOpenFile fs1 path flag perm

/-- One `d.Write(buf[:n])` of the copy loop: append bytes to the file the
write handle designates. -/
def writeToFile (fs : FS) (p : String) (bytes : List Nat) : FS :=
  match fsLookup fs p with
  | some (.file c fperm r) => fsInsert fs p (.file (c ++ bytes) fperm r)
  | _ => fs

/-- The read/write loop of `CopyFile` (`file_util.go:114-126`): each round
reads at most `BufferSize` bytes from what remains of the source and writes
exactly the bytes read; `n == 0 || err == io.EOF` ends the loop.  The `Nat`
argument is fuel making the recursion structural; each round consumes at
least one byte, so the fuel `writeChunks` supplies never runs out. -/
def writeChunksFuel : Nat → FS → String → List Nat → FS
  | 0, fs, _, _ => fs
  | fuel + 1, fs, dst, rem =>
    if rem = [] then fs
    else writeChunksFuel fuel (writeToFile fs dst (rem.take BufferSize)) dst
      (rem.drop BufferSize)

/-- The copy loop with enough fuel for the whole content. -/
def writeChunks (fs : FS) (dst : String) (rem : List Nat) : FS :=
  writeChunksFuel (rem.length + 1) fs dst rem

/-- `CopyFile` (`file_util.go:94-128`). -/
def CopyFile (fs : FS) (src : String) (dst : String) : Except FsError FS :=
  if !IsRegularFile fs src then .error (.notRegularFile src)
  else
    match OpenFile fs src oRdOnly 0o666 with
    | .error e => .error e
    | .ok (fs1, content) =>
      if PathExist fs1 dst then .error (.destinationExists dst)
      else
        match OpenFile fs1 dst oWrCreateTrunc 0o755 with
        | .error e => .error e
        | .ok (fs2, _) => .ok (writeChunks fs2 dst content)

/-- Go's `os.Rename`: atomically move `src` over `dst`; renaming a file
onto an existing directory fails, onto anything else replaces it. -/
def osRename (fs : FS) (src dst : String) : Except FsError FS :=
  match fsLookup fs src with
  | none => .error (.notExist src)
  | some n =>
    match fsLookup fs dst with
    | some (.dir _) => .error (.isDirectory dst)
    | _ => .ok (fsInsert (fsErase fs src) dst n)

/-- `MoveFile` (`file_util.go:131-141`): an existing non-directory `dst` is
deleted first, then `src` is renamed to `dst`. -/
def MoveFile (fs : FS) (src dst : String) : Except FsError FS :=
  if !IsRegularFile fs src then .error (.notRegularFile src)
  else if PathExist fs dst && !IsDir fs dst then
    match DeleteFile fs dst with
    | .error e => .error e
    | .ok fs1 => osRename fs1 src dst
  else osRename fs src dst

/-- `Md5Sum` (`file_util.go:182-201`): the lowercase hex MD5 digest of a
file's bytes, or `""` when the path is not a regular file or its bytes
cannot be obtained. -/
def Md5Sum (fs : FS) (name : String) : String :=
  if !IsRegularFile fs name then ""
  else
    match OpenFile fs name oRdOnly 0o666 with
    | .error _ => ""
    | .ok (_, content) => md5Hex content

/-- `MoveFileAfterCheckMd5` (`file_util.go:145-154`). -/
def MoveFileAfterCheckMd5 (fs : FS) (src dst : String) (md5 : String) :
    Except FsError FS :=
  if !IsRegularFile fs src then .error (.notRegularFile src)
  else if Md5Sum fs src != md5 then .error (.digestMismatch src)
  else MoveFile fs src dst

/-- Whether an `Except` result is a success. -/
def exOk {ε α : Type} : Except ε α → Bool
  | .ok _ => true
  | .error _ => false

/-- Decidable equality of results, for concrete evaluation. -/
instance {ε α : Type} [DecidableEq ε] [DecidableEq α] :
    DecidableEq (Except ε α) := fun a b =>
  match a, b with
  | .ok x, .ok y =>
    if h : x = y then .isTrue (by rw [h]) else .isFalse (by simp [h])
  | .error x, .error y =>
    if h : x = y then .isTrue (by rw [h]) else .isFalse (by simp [h])
  | .ok _, .error _ => .isFalse (by simp)
  | .error _, .ok _ => .isFalse (by simp)

/-! ## Lemmas about the filesystem primitives -/

theorem fsLookup_erase_self (fs : FS) (p : String) :
    fsLookup (fsErase fs p) p = none := by
  induction fs with
  | nil => rfl
  | cons e rest ih =>
    obtain ⟨q, n⟩ := e
    by_cases h : q = p <;> simp [fsErase, fsLookup, h, ih]

theorem fsLookup_erase_ne (fs : FS) (p q : String) (h : q ≠ p) :
    fsLookup (fsErase fs p) q = fsLookup fs q := by
  induction fs with
  | nil => rfl
  | cons e rest ih =>
    obtain ⟨k, n⟩ := e
    by_cases hk : k = p
    · subst hk
      simp [fsErase, fsLookup, (Ne.symm h : ¬ k = q), ih]
    · simp only [fsErase, if_neg hk, fsLookup]
      by_cases hq : k = q <;> simp [hq, ih]

theorem fsLookup_insert_self (fs : FS) (p : String) (n : Node) :
    fsLookup (fsInsert fs p n) p = some n := by
  simp [fsInsert, fsLookup]

theorem fsLookup_insert_ne (fs : FS) (p q : String) (n : Node) (h : q ≠ p) :
    fsLookup (fsInsert fs p n) q = fsLookup fs q := by
  have hpq : ¬ p = q := fun hpq => h hpq.symm
  simp only [fsInsert, fsLookup, if_neg hpq]
  exact fsLookup_erase_ne fs p q h

/-- Paths with different lookups are different. -/
theorem ne_of_lookup_ne (fs : FS) (p q : String)
    (h : fsLookup fs p ≠ fsLookup fs q) : p ≠ q := by
  rintro rfl; exact h rfl

/-! ## Lemmas about the copy loop -/

theorem writeToFile_lookup_ne (fs : FS) (p q : String) (bytes : List Nat)
    (h : q ≠ p) : fsLookup (writeToFile fs p bytes) q = fsLookup fs q := by
  unfold writeToFile
  cases hn : fsLookup fs p with
  | none => rfl
  | some n =>
    cases n with
    | file c fperm r => exact fsLookup_insert_ne _ _ _ _ h
    | dir _ => rfl
    | special => rfl

theorem writeToFile_lookup_self (fs : FS) (p : String) (bytes c : List Nat)
    (fperm : Nat) (r : Bool) (h : fsLookup fs p = some (.file c fperm r)) :
    fsLookup (writeToFile fs p bytes) p = some (.file (c ++ bytes) fperm r) := by
  simp [writeToFile, h, fsLookup_insert_self]

theorem writeChunksFuel_lookup_ne (dst q : String) (h : q ≠ dst) :
    ∀ (fuel : Nat) (fs : FS) (rem : List Nat),
      fsLookup (writeChunksFuel fuel fs dst rem) q = fsLookup fs q := by
  intro fuel
  induction fuel with
  | zero => intro fs rem; rfl
  | succ n ih =>
    intro fs rem
    unfold writeChunksFuel
    by_cases hrem : rem = []
    · simp [hrem]
    · simp only [if_neg hrem, ih]
      exact writeToFile_lookup_ne _ _ _ _ h

theorem writeChunksFuel_content (dst : String) :
    ∀ (fuel : Nat) (rem : List Nat) (fs : FS) (c : List Nat) (fperm : Nat)
      (r : Bool), rem.length < fuel →
      fsLookup fs dst = some (.file c fperm r) →
      fsLookup (writeChunksFuel fuel fs dst rem) dst =
        some (.file (c ++ rem) fperm r) := by
  intro fuel
  induction fuel with
  | zero => intro rem fs c fperm r hlt; omega
  | succ n ih =>
    intro rem fs c fperm r hlt hc
    unfold writeChunksFuel
    by_cases hrem : rem = []
    · simp [hrem, hc]
    · simp only [if_neg hrem]
      have hwrite := writeToFile_lookup_self fs dst (rem.take BufferSize)
        c fperm r hc
      have hlen : (rem.drop BufferSize).length < n := by
        have h1 : 0 < rem.length := List.length_pos.mpr hrem
        have h2 : 0 < BufferSize := by norm_num [BufferSize]
        simp only [List.length_drop]
        omega
      have := ih (rem.drop BufferSize) _ _ fperm r hlen hwrite
      rw [this, List.append_assoc, List.take_append_drop]

theorem writeChunks_lookup_ne (fs : FS) (dst q : String) (rem : List Nat)
    (h : q ≠ dst) : fsLookup (writeChunks fs dst rem) q = fsLookup fs q :=
  writeChunksFuel_lookup_ne dst q h _ fs rem

theorem writeChunks_content (fs : FS) (dst : String) (rem c : List Nat)
    (fperm : Nat) (r : Bool) (h : fsLookup fs dst = some (.file c fperm r)) :
    fsLookup (writeChunks fs dst rem) dst = some (.file (c ++ rem) fperm r) :=
  writeChunksFuel_content dst _ rem fs c fperm r (Nat.lt_succ_self _) h

/-! ## Lemmas about paths and `mkdirAll` -/

theorem beforeLastSlash_length :
    ∀ (l b : List Char), beforeLastSlash l = some b → b.length < l.length := by
  intro l
  induction l with
  | nil => intro b h; simp [beforeLastSlash] at h
  | cons c rest ih =>
    intro b h
    simp only [beforeLastSlash] at h
    cases hr : beforeLastSlash rest with
    | some b1 =>
      rw [hr] at h
      cases h
      have := ih b1 hr
      simp only [List.length_cons]
      omega
    | none =>
      rw [hr] at h
      by_cases hc : c = '/'
      · rw [if_pos hc] at h
        cases h
        simp
      · rw [if_neg hc] at h
        cases h

/-- Two strings whose character lists have different lengths differ. -/
theorem string_ne_of_length_ne (p q : String)
    (h : p.data.length ≠ q.data.length) : p ≠ q := by
  rintro rfl; exact h rfl

/-- `mkdirAllFuel` only ever adds bindings: existing bindings survive. -/
theorem mkdirAllFuel_keep_some :
    ∀ (fuel : Nat) (fs : FS) (path : String) (perm : Nat) (fs1 : FS)
      (q : String) (n : Node), mkdirAllFuel fuel fs path perm = .ok fs1 →
      fsLookup fs q = some n → fsLookup fs1 q = some n := by
  intro fuel
  induction fuel with
  | zero => intro fs path perm fs1 q n h; cases h
  | succ m ih =>
    intro fs path perm fs1 q n h hq
    unfold mkdirAllFuel at h
    split at h
    · cases h; exact hq
    · cases h
    · rename_i hp
      have hne : path ≠ q := by
        rintro rfl; rw [hp] at hq; cases hq
      split at h
      · cases h
        rw [fsLookup_insert_ne _ _ _ _ (Ne.symm hne)]; exact hq
      · cases h
        rw [fsLookup_insert_ne _ _ _ _ (Ne.symm hne)]; exact hq
      · rename_i c cs hb
        split at h
        · cases h
        · rename_i fsmid hrec
          cases h
          have hmid := ih fs (String.mk (c :: cs)) perm fsmid q n hrec hq
          rw [fsLookup_insert_ne _ _ _ _ (Ne.symm hne)]; exact hmid

/-- All bindings `mkdirAllFuel` adds sit at paths no longer than the one it
was asked to create: lookups at strictly longer paths are untouched. -/
theorem mkdirAllFuel_keep_long :
    ∀ (fuel : Nat) (fs : FS) (path : String) (perm : Nat) (fs1 : FS)
      (q : String), mkdirAllFuel fuel fs path perm = .ok fs1 →
      path.data.length < q.data.length → fsLookup fs1 q = fsLookup fs q := by
  intro fuel
  induction fuel with
  | zero => intro fs path perm fs1 q h; cases h
  | succ m ih =>
    intro fs path perm fs1 q h hlen
    have hne : path ≠ q := string_ne_of_length_ne _ _ (by omega)
    unfold mkdirAllFuel at h
    split at h
    · cases h; rfl
    · cases h
    · split at h
      · cases h
        exact fsLookup_insert_ne _ _ _ _ (Ne.symm hne)
      · cases h
        exact fsLookup_insert_ne _ _ _ _ (Ne.symm hne)
      · rename_i c cs hb
        split at h
        · cases h
        · rename_i fsmid hrec
          cases h
          have hblen := beforeLastSlash_length _ _ hb
          have hmidlen : (String.mk (c :: cs)).data.length < q.data.length := by
            simp only [String.mk]
            omega
          have hmid := ih fs (String.mk (c :: cs)) perm fsmid q hrec hmidlen
          rw [fsLookup_insert_ne _ _ _ _ (Ne.symm hne), hmid]

/-- After a successful `mkdirAllFuel`, the requested path is a directory:
either it already was one, or it was freshly created with `perm`. -/
theorem mkdirAllFuel_creates :
    ∀ (fuel : Nat) (fs : FS) (path : String) (perm : Nat) (fs1 : FS),
      mkdirAllFuel fuel fs path perm = .ok fs1 →
      ∃ pp, fsLookup fs1 path = some (.dir pp) ∧
        (pp = perm ∨ fsLookup fs path = some (.dir pp)) := by
  intro fuel fs path perm fs1 h
  cases fuel with
  | zero => cases h
  | succ m =>
    unfold mkdirAllFuel at h
    split at h
    · rename_i pp hp
      cases h; exact ⟨pp, hp, Or.inr hp⟩
    · cases h
    · split at h
      · cases h
        exact ⟨perm, fsLookup_insert_self _ _ _, Or.inl rfl⟩
      · cases h
        exact ⟨perm, fsLookup_insert_self _ _ _, Or.inl rfl⟩
      · split at h
        · cases h
        · cases h
          exact ⟨perm, fsLookup_insert_self _ _ _, Or.inl rfl⟩

theorem createDirectory_keep_some (fs : FS) (p : String) (fs1 : FS)
    (q : String) (n : Node) (h : CreateDirectory fs p = .ok fs1)
    (hq : fsLookup fs q = some n) : fsLookup fs1 q = some n := by
  unfold CreateDirectory at h
  cases hp : fsLookup fs p with
  | none => rw [hp] at h; exact mkdirAllFuel_keep_some _ _ _ _ _ _ _ h hq
  | some node =>
    rw [hp] at h
    cases node with
    | dir _ => cases h; exact hq
    | file _ _ _ => cases h
    | special => cases h

theorem createDirectory_keep_long (fs : FS) (p : String) (fs1 : FS)
    (q : String) (h : CreateDirectory fs p = .ok fs1)
    (hlen : p.data.length < q.data.length) :
    fsLookup fs1 q = fsLookup fs q := by
  unfold CreateDirectory at h
  cases hp : fsLookup fs p with
  | none => rw [hp] at h; exact mkdirAllFuel_keep_long _ _ _ _ _ _ h hlen
  | some node =>
    rw [hp] at h
    cases node with
    | dir _ => cases h; rfl
    | file _ _ _ => cases h
    | special => cases h

/-- After a successful `CreateDirectory`, the path is a directory. -/
theorem createDirectory_dir (fs : FS) (p : String) (fs1 : FS)
    (h : CreateDirectory fs p = .ok fs1) :
    ∃ pp, fsLookup fs1 p = some (.dir pp) := by
  unfold CreateDirectory at h
  cases hp : fsLookup fs p with
  | none =>
    rw [hp] at h
    obtain ⟨pp, h1, _⟩ := mkdirAllFuel_creates _ _ _ _ _ h
    exact ⟨pp, h1⟩
  | some node =>
    rw [hp] at h
    cases node with
    | dir pp => cases h; exact ⟨pp, hp⟩
    | file _ _ _ => cases h
    | special => cases h

/-- A successful `CreateDirectory` on an absent path creates a directory
with permission `0o755`. -/
theorem createDirectory_new_dir (fs : FS) (p : String) (fs1 : FS)
    (h : CreateDirectory fs p = .ok fs1) (hp : fsLookup fs p = none) :
    fsLookup fs1 p = some (.dir 0o755) := by
  unfold CreateDirectory at h
  rw [hp] at h
  obtain ⟨pp, h1, h2⟩ := mkdirAllFuel_creates _ _ _ _ _ h
  cases h2 with
  | inl hperm => rw [hperm] at h1; exact h1
  | inr hold => rw [hp] at hold; cases hold

/-- A parent that is neither the sentinel `"."` nor the path itself is a
strictly shorter string. -/
theorem filepathDir_shorter (p : String) (h1 : filepathDir p ≠ ".")
    (h2 : filepathDir p ≠ p) :
    (filepathDir p).data.length < p.data.length := by
  unfold filepathDir at h1 h2 ⊢
  generalize hb : beforeLastSlash p.data = ob at h1 h2 ⊢
  cases ob with
  | none => simp at h1
  | some b =>
    cases b with
    | nil =>
      replace h2 : ("/" : String) ≠ p := h2
      show ("/" : String).data.length < p.data.length
      have hlen := beforeLastSlash_length _ _ hb
      by_cases hone : p.data.length = 1
      · exfalso
        apply h2
        cases hd : p.data with
        | nil => rw [hd] at hone; cases hone
        | cons c cs =>
          cases cs with
          | nil =>
            have hc : c = '/' := by
              have hb1 := hb
              rw [hd] at hb1
              simp only [beforeLastSlash] at hb1
              by_cases hcc : c = '/'
              · exact hcc
              · rw [if_neg hcc] at hb1; cases hb1
            have hp : p = String.mk p.data := by cases p; rfl
            rw [hp, hd, hc]
          | cons c2 cs2 => rw [hd] at hone; simp at hone
      · have hone2 : ("/" : String).data.length = 1 := rfl
        simp only [List.length_nil] at hlen
        omega
    | cons c cs =>
      show (String.mk (c :: cs)).data.length < p.data.length
      simpa using beforeLastSlash_length _ _ hb

/-! ## Evaluation lemmas for `OpenFile` and `Md5Sum` -/

/-- Opening an existing readable regular file for reading yields its
content and leaves the filesystem unchanged. -/
theorem openFile_read_ok (fs : FS) (p : String) (c : List Nat)
    (fperm perm : Nat) (h : fsLookup fs p = some (.file c fperm true)) :
    OpenFile fs p oRdOnly perm = .ok (fs, c) := by
  have hex : PathExist fs p = true := by simp [PathExist, h]
  simp [OpenFile, hex, osOpenFile, h, oRdOnly]

/-- Write-opening an absent path whose parent is the sentinel `"."`
creates the file directly. -/
theorem openFile_write_dot (fs : FS) (p : String) (perm : Nat)
    (hp : fsLookup fs p = none) (hd : filepathDir p = ".") :
    OpenFile fs p oWrCreateTrunc perm =
      .ok (fsInsert fs p (.file [] perm true), []) := by
  have hex : PathExist fs p = false := by simp [PathExist, hp]
  simp [OpenFile, hex, hd, osOpenFile, hp, oWrCreateTrunc]

/-- Write-opening an absent path whose parent directory chain can be
created first creates that chain and then the file. -/
theorem openFile_write_mkdir (fs : FS) (p : String) (perm : Nat) (fs1 : FS)
    (hp : fsLookup fs p = none) (hd : filepathDir p ≠ ".")
    (hdp : filepathDir p ≠ p)
    (hcd : CreateDirectory fs (filepathDir p) = .ok fs1) :
    OpenFile fs p oWrCreateTrunc perm =
      .ok (fsInsert fs1 p (.file [] perm true), []) ∧
      fsLookup fs1 p = none := by
  have hex : PathExist fs p = false := by simp [PathExist, hp]
  have hlen := filepathDir_shorter p hd hdp
  have hp1 : fsLookup fs1 p = none := by
    rw [createDirectory_keep_long fs (filepathDir p) fs1 p hcd hlen]; exact hp
  constructor
  · simp [OpenFile, hex, hd, hcd, osOpenFile, hp1, oWrCreateTrunc]
  · exact hp1

/-- `Md5Sum` on a regular file: the digest of the content when the bytes
are obtainable, `""` otherwise. -/
theorem md5Sum_eval (fs : FS) (p : String) (c : List Nat) (fperm : Nat)
    (r : Bool) (h : fsLookup fs p = some (.file c fperm r)) :
    Md5Sum fs p = if r then md5Hex c else "" := by
  have hreg : IsRegularFile fs p = true := by simp [IsRegularFile, h]
  have hex : PathExist fs p = true := by simp [PathExist, h]
  cases r with
  | true => simp [Md5Sum, hreg, OpenFile, hex, osOpenFile, h, oRdOnly]
  | false => simp [Md5Sum, hreg, OpenFile, hex, osOpenFile, h, oRdOnly]

/-- `Md5Sum` on anything that is not a regular readable file is `""`. -/
theorem md5Sum_fail (fs : FS) (p : String)
    (h : ∀ c fperm, fsLookup fs p ≠ some (.file c fperm true)) :
    Md5Sum fs p = "" := by
  cases hp : fsLookup fs p with
  | none => simp [Md5Sum, IsRegularFile, hp]
  | some n =>
    cases n with
    | file c fperm r =>
      cases r with
      | true => exact absurd hp (h c fperm)
      | false => rw [md5Sum_eval fs p c fperm false hp]; rfl
    | dir _ => simp [Md5Sum, IsRegularFile, hp]
    | special => simp [Md5Sum, IsRegularFile, hp]

/-! ## The successful copy path -/

/-- Evaluation of `CopyFile` once the destination write-open is known to
create an empty file: the copy loop transfers the whole source content
through the `BufferSize` buffer. -/
theorem copyFile_ok_core (fs fsm : FS) (src dst : String) (content : List Nat)
    (fperm : Nat) (hsrc : fsLookup fs src = some (.file content fperm true))
    (hdst : fsLookup fs dst = none)
    (hopen : OpenFile fs dst oWrCreateTrunc 0o755 =
      .ok (fsInsert fsm dst (.file [] 0o755 true), [])) :
    CopyFile fs src dst = .ok (writeChunks (fsInsert fsm dst
        (.file [] 0o755 true)) dst content) ∧
      fsLookup (writeChunks (fsInsert fsm dst (.file [] 0o755 true)) dst
        content) dst = some (.file content 0o755 true) ∧
      (∀ q, q ≠ dst → fsLookup (writeChunks (fsInsert fsm dst
        (.file [] 0o755 true)) dst content) q = fsLookup fsm q) := by
  have hreg : IsRegularFile fs src = true := by simp [IsRegularFile, hsrc]
  have hex : PathExist fs dst = false := by simp [PathExist, hdst]
  have hread := openFile_read_ok fs src content fperm 0o666 hsrc
  refine ⟨?_, ?_, ?_⟩
  · simp [CopyFile, hreg, hread, hex, hopen]
  · have := writeChunks_content (fsInsert fsm dst (.file [] 0o755 true)) dst
      content [] 0o755 true (fsLookup_insert_self _ _ _)
    simpa using this
  · intro q hq
    rw [writeChunks_lookup_ne _ _ _ _ hq, fsLookup_insert_ne _ _ _ _ hq]

/-! ## Lemmas about the digest characters and `DeleteFiles` -/

theorem isLowerHexDigit_hexChar (n : Nat) (h : n < 16) :
    isLowerHexDigit (hexChar n) = true := by
  interval_cases n <;> decide

/-- Every character of a digest string is a lowercase hex digit. -/
theorem md5Hex_lower (c : List Nat) :
    ∀ ch ∈ (md5Hex c).data, isLowerHexDigit ch = true := by
  intro ch hch
  have hch2 : ch ∈ ((md5Bytes c).map byteHex).flatten := hch
  rw [List.mem_flatten] at hch2
  obtain ⟨l, hl, hchl⟩ := hch2
  rw [List.mem_map] at hl
  obtain ⟨b, _, rfl⟩ := hl
  simp only [byteHex, List.mem_cons, List.not_mem_nil, or_false] at hchl
  rcases hchl with rfl | rfl
  · exact isLowerHexDigit_hexChar _ (Nat.mod_lt _ (by norm_num))
  · exact isLowerHexDigit_hexChar _ (Nat.mod_lt _ (by norm_num))

/-- `DeleteFiles` never creates entries: an absent path stays absent. -/
theorem deleteFiles_keep_none (ps : List String) :
    ∀ (fs : FS) (q : String), fsLookup fs q = none →
      fsLookup (DeleteFiles fs ps) q = none := by
  induction ps with
  | nil => intro fs q h; exact h
  | cons p rest ih =>
    intro fs q h
    unfold DeleteFiles
    cases hd : DeleteFile fs p with
    | error e => exact ih fs q h
    | ok fs1 =>
      unfold DeleteFile at hd
      split at hd
      · cases hd
      · split at hd
        · cases hd
        · cases hd
          apply ih
          by_cases hq : q = p
          · subst hq; exact fsLookup_erase_self fs q
          · rw [fsLookup_erase_ne fs p q hq]; exact h

/-- `DeleteFiles` touches only the listed paths. -/
theorem deleteFiles_keep_notMem (ps : List String) :
    ∀ (fs : FS) (q : String), q ∉ ps →
      fsLookup (DeleteFiles fs ps) q = fsLookup fs q := by
  induction ps with
  | nil => intro fs q _; rfl
  | cons p rest ih =>
    intro fs q h
    have hq : q ≠ p := fun hqp => h (hqp ▸ List.mem_cons_self p rest)
    have hr : q ∉ rest := fun hmem => h (List.mem_cons_of_mem p hmem)
    unfold DeleteFiles
    cases hd : DeleteFile fs p with
    | error e => exact ih fs q hr
    | ok fs1 =>
      unfold DeleteFile at hd
      split at hd
      · cases hd
      · split at hd
        · cases hd
        · cases hd
          rw [ih _ q hr, fsLookup_erase_ne fs p q hq]

/-- Every listed path that is not a directory is gone afterwards, no matter
how the deletions of the other listed paths fared. -/
theorem deleteFiles_removes (ps : List String) :
    ∀ (fs : FS) (q : String), q ∈ ps →
      (∀ dp, fsLookup fs q ≠ some (.dir dp)) →
      fsLookup (DeleteFiles fs ps) q = none := by
  induction ps with
  | nil => intro fs q h; cases h
  | cons p rest ih =>
    intro fs q hmem hnd
    unfold DeleteFiles
    rcases List.mem_cons.mp hmem with rfl | hmemr
    · cases hd : DeleteFile fs q with
      | error e =>
        unfold DeleteFile at hd
        split at hd
        · rename_i hcond
          apply deleteFiles_keep_none
          simp only [Bool.not_eq_true'] at hcond
          unfold PathExist at hcond
          cases hq : fsLookup fs q with
          | none => rfl
          | some n => rw [hq] at hcond; cases hcond
        · split at hd
          · rename_i hcond
            exfalso
            unfold IsDir at hcond
            cases hq : fsLookup fs q with
            | none => rw [hq] at hcond; cases hcond
            | some n =>
              cases n with
              | dir dp => exact hnd dp hq
              | file _ _ _ => rw [hq] at hcond; simp at hcond
              | special => rw [hq] at hcond; simp at hcond
          · cases hd
      | ok fs1 =>
        unfold DeleteFile at hd
        split at hd
        · cases hd
        · split at hd
          · cases hd
          · cases hd
            apply deleteFiles_keep_none
            exact fsLookup_erase_self fs q
    · cases hd : DeleteFile fs p with
      | error e => exact ih fs q hmemr hnd
      | ok fs1 =>
        unfold DeleteFile at hd
        split at hd
        · cases hd
        · split at hd
          · cases hd
          · cases hd
            apply ih _ q hmemr
            intro dp hdp
            by_cases hq : q = p
            · subst hq
              rw [fsLookup_erase_self fs q] at hdp; cases hdp
            · rw [fsLookup_erase_ne fs p q hq] at hdp
              exact hnd dp hdp

/-! ## The claims -/

/-- C2: for every path bound to a regular file whose bytes can be fully
read, `Md5Sum` returns the lowercase hexadecimal MD5 digest of the file's
byte stream — for the byte stream "hello" that digest is
`5d41402abc4b2a76b9719d911017c592` — and for every path that is not a
regular file, cannot be opened, or cannot be fully read, `Md5Sum` returns
the empty string. -/
theorem md5Sum_correct (fs : FS) (p : String) :
    (∀ c fperm, fsLookup fs p = some (.file c fperm true) →
      Md5Sum fs p = md5Hex c ∧
        ∀ ch ∈ (md5Hex c).data, isLowerHexDigit ch = true) ∧
    ((∀ c fperm, fsLookup fs p ≠ some (.file c fperm true)) →
      Md5Sum fs p = "") ∧
    md5Hex (strBytes "hello") = "5d41402abc4b2a76b9719d911017c592" := by
  refine ⟨?_, md5Sum_fail fs p, by decide⟩
  intro c fperm h
  refine ⟨?_, md5Hex_lower c⟩
  rw [md5Sum_eval fs p c fperm true h]
  rfl

/-- C2 witness: a file `a.txt` holding the bytes of "hello" hashes to the
well-known digest. -/
theorem md5Sum_correct_witness :
    Md5Sum [("a.txt", Node.file (strBytes "hello") 420 true)] "a.txt" =
      "5d41402abc4b2a76b9719d911017c592" := by
  have h := md5Sum_correct [("a.txt", Node.file (strBytes "hello") 420 true)]
    "a.txt"
  have h1 := (h.1 (strBytes "hello") 420 rfl).1
  rw [h1, h.2.2]

/-- C4: when `src` is a regular file whose computed digest differs from the
expected digest, `MoveFileAfterCheckMd5` fails with the digest-mismatch
error; since every function returns either an error or the new filesystem,
the error return leaves both `src` and `dst` exactly as they were. -/
theorem moveFileAfterCheckMd5_mismatch (fs : FS) (src dst g : String)
    (c : List Nat) (fperm : Nat) (r : Bool)
    (hsrc : fsLookup fs src = some (.file c fperm r))
    (hne : Md5Sum fs src ≠ g) :
    MoveFileAfterCheckMd5 fs src dst g = .error (.digestMismatch src) := by
  have hreg : IsRegularFile fs src = true := by simp [IsRegularFile, hsrc]
  simp [MoveFileAfterCheckMd5, hreg, bne_iff_ne, hne]

/-- C4 witness. -/
theorem moveFileAfterCheckMd5_mismatch_witness :
    MoveFileAfterCheckMd5 [("s", Node.file [1] 420 true)] "s" "d" "zz" =
      .error (.digestMismatch "s") :=
  moveFileAfterCheckMd5_mismatch _ "s" "d" "zz" [1] 420 true rfl (by decide)

/-- C6: `DeleteFile` fails with the not-exist error on an absent path,
fails with the is-a-directory error on a directory (the error return leaves
the directory in place), and otherwise removes exactly the one binding of
that path. -/
theorem deleteFile_spec (fs : FS) (p : String) :
    (PathExist fs p = false → DeleteFile fs p = .error (.notExist p)) ∧
    (IsDir fs p = true → DeleteFile fs p = .error (.isDirectory p)) ∧
    (PathExist fs p = true → IsDir fs p = false →
      DeleteFile fs p = .ok (fsErase fs p) ∧
      fsLookup (fsErase fs p) p = none ∧
      ∀ q, q ≠ p → fsLookup (fsErase fs p) q = fsLookup fs q) := by
  refine ⟨?_, ?_, ?_⟩
  · intro h; simp [DeleteFile, h]
  · intro h
    have hex : PathExist fs p = true := by
      unfold IsDir at h
      cases hp : fsLookup fs p with
      | none => rw [hp] at h; simp at h
      | some n => simp [PathExist, hp]
    simp [DeleteFile, hex, h]
  · intro hex hdir
    exact ⟨by simp [DeleteFile, hex, hdir], fsLookup_erase_self fs p,
      fun q hq => fsLookup_erase_ne fs p q hq⟩

/-- C6 witness. -/
theorem deleteFile_spec_witness :
    DeleteFile [("f", Node.file [] 420 true)] "f" = .ok [] ∧
    DeleteFile [] "f" = .error (.notExist "f") :=
  ⟨((deleteFile_spec [("f", Node.file [] 420 true)] "f").2.2 rfl rfl).1,
    (deleteFile_spec ([] : FS) "f").1 rfl⟩

/-- C7: `CreateDirectory` is idempotent — after a successful call the path
is a directory, so a second call succeeds changing nothing; a path that
already is a directory succeeds silently with no change, and a path that
exists as a non-directory fails with the not-a-directory error. -/
theorem createDirectory_idempotent (fs : FS) (p : String) :
    (∀ fs1, CreateDirectory fs p = .ok fs1 →
      CreateDirectory fs1 p = .ok fs1 ∧ IsDir fs1 p = true) ∧
    (IsDir fs p = true → CreateDirectory fs p = .ok fs) ∧
    (PathExist fs p = true → IsDir fs p = false →
      CreateDirectory fs p = .error (.notADirectory p)) := by
  refine ⟨?_, ?_, ?_⟩
  · intro fs1 h
    obtain ⟨pp, hdir⟩ := createDirectory_dir fs p fs1 h
    exact ⟨by simp [CreateDirectory, hdir], by simp [IsDir, hdir]⟩
  · intro h
    unfold IsDir at h
    cases hp : fsLookup fs p with
    | none => rw [hp] at h; simp at h
    | some n =>
      cases n with
      | dir pp => simp [CreateDirectory, hp]
      | file _ _ _ => rw [hp] at h; simp at h
      | special => rw [hp] at h; simp at h
  · intro hex hdir
    cases hp : fsLookup fs p with
    | none => simp [PathExist, hp] at hex
    | some n =>
      cases n with
      | dir pp => simp [IsDir, hp] at hdir
      | file c fperm r => simp [CreateDirectory, hp]
      | special => simp [CreateDirectory, hp]

/-- C7 witness: creating `"a"` in the empty filesystem succeeds, and the
second call succeeds with no change. -/
theorem createDirectory_idempotent_witness :
    CreateDirectory [("a", Node.dir 0o755)] "a" = .ok [("a", Node.dir 0o755)] ∧
    IsDir [("a", Node.dir 0o755)] "a" = true :=
  (createDirectory_idempotent ([] : FS) "a").1 [("a", Node.dir 0o755)] rfl

/-- C8: `DeleteFiles` attempts `DeleteFile` on every listed path — even the
paths listed after a failing one — removes every listed path that holds a
regular file, touches nothing else, and, having no error channel at all
(the Go loop `continue`s on error and the function returns nothing),
reports no error for the batch. -/
theorem deleteFiles_spec (fs : FS) (ps : List String) :
    (∀ q ∈ ps, (∃ c fperm r, fsLookup fs q = some (.file c fperm r)) →
      fsLookup (DeleteFiles fs ps) q = none) ∧
    (∀ q, q ∉ ps → fsLookup (DeleteFiles fs ps) q = fsLookup fs q) := by
  constructor
  · rintro q hq ⟨c, fperm, r, hfile⟩
    apply deleteFiles_removes ps fs q hq
    intro dp hdp
    rw [hfile] at hdp; cases hdp
  · intro q hq; exact deleteFiles_keep_notMem ps fs q hq

/-- C8 witness: a batch with a non-existent path and an existing file
removes the file and leaves the unlisted directory alone. -/
theorem deleteFiles_spec_witness :
    fsLookup (DeleteFiles [("x", Node.file [] 420 true), ("d", Node.dir 493)]
      ["nope", "x"]) "x" = none ∧
    fsLookup (DeleteFiles [("x", Node.file [] 420 true), ("d", Node.dir 493)]
      ["nope", "x"]) "d" = some (Node.dir 493) := by
  have h := deleteFiles_spec [("x", Node.file [] 420 true),
    ("d", Node.dir 493)] ["nope", "x"]
  refine ⟨h.1 "x" (by decide) ⟨[], 420, true, rfl⟩, ?_⟩
  rw [h.2 "d" (by decide)]
  rfl

/-- C9: when `src` is a regular file whose digest cannot be computed
(`Md5Sum` yields its empty-string failure signal), calling
`MoveFileAfterCheckMd5` with the empty string as the expected digest passes
the check and commits the move with no integrity verification. -/
theorem moveFileAfterCheckMd5_emptyDigest (fs : FS) (src dst : String)
    (content : List Nat) (fperm : Nat)
    (hsrc : fsLookup fs src = some (.file content fperm false))
    (hdst : fsLookup fs dst = none) :
    Md5Sum fs src = "" ∧
    MoveFileAfterCheckMd5 fs src dst "" = MoveFile fs src dst ∧
    ∃ fs1, MoveFileAfterCheckMd5 fs src dst "" = .ok fs1 ∧
      fsLookup fs1 dst = some (.file content fperm false) ∧
      fsLookup fs1 src = none := by
  have hreg : IsRegularFile fs src = true := by simp [IsRegularFile, hsrc]
  have hmd5 : Md5Sum fs src = "" := by
    rw [md5Sum_eval fs src content fperm false hsrc]
    rfl
  have hne : src ≠ dst := ne_of_lookup_ne fs src dst (by rw [hsrc, hdst]; simp)
  have hex : PathExist fs dst = false := by simp [PathExist, hdst]
  have heq : MoveFileAfterCheckMd5 fs src dst "" = MoveFile fs src dst := by
    simp [MoveFileAfterCheckMd5, hreg, hmd5]
  have hmv : MoveFile fs src dst = .ok (fsInsert (fsErase fs src) dst
      (.file content fperm false)) := by
    simp [MoveFile, hreg, hex, osRename, hsrc, hdst]
  refine ⟨hmd5, heq, _, by rw [heq, hmv], fsLookup_insert_self _ _ _, ?_⟩
  rw [fsLookup_insert_ne _ _ _ _ hne, fsLookup_erase_self]

/-- C9 witness. -/
theorem moveFileAfterCheckMd5_emptyDigest_witness :
    Md5Sum [("u", Node.file [9] 420 false)] "u" = "" ∧
    MoveFileAfterCheckMd5 [("u", Node.file [9] 420 false)] "u" "v" "" =
      MoveFile [("u", Node.file [9] 420 false)] "u" "v" ∧
    ∃ fs1, MoveFileAfterCheckMd5 [("u", Node.file [9] 420 false)] "u" "v" ""
        = .ok fs1 ∧
      fsLookup fs1 "v" = some (Node.file [9] 420 false) ∧
      fsLookup fs1 "u" = none :=
  moveFileAfterCheckMd5_emptyDigest [("u", Node.file [9] 420 false)] "u" "v"
    [9] 420 rfl rfl

/-- C3: after a successful `MoveFile`, `src` is gone and `dst` holds
`src`'s original content (node and hence digest unchanged); when `dst`
existed and was not a directory it is deleted first (the call reduces to a
rename on the filesystem with `dst` erased); and a non-regular `src` is
the not-a-regular-file error. -/
theorem moveFile_spec (fs : FS) (src dst : String) :
    (∀ content fperm r fs1, fsLookup fs src = some (.file content fperm r) →
      MoveFile fs src dst = .ok fs1 →
      fsLookup fs1 src = none ∧
      fsLookup fs1 dst = some (.file content fperm r) ∧
      Md5Sum fs1 dst = Md5Sum fs src) ∧
    (IsRegularFile fs src = true → PathExist fs dst = true →
      IsDir fs dst = false →
      MoveFile fs src dst = osRename (fsErase fs dst) src dst) ∧
    (IsRegularFile fs src = false →
      MoveFile fs src dst = .error (.notRegularFile src)) := by
  refine ⟨?_, ?_, ?_⟩
  · intro content fperm r fs1 hsrc hok
    have hreg : IsRegularFile fs src = true := by simp [IsRegularFile, hsrc]
    by_cases hsd : src = dst
    · subst hsd
      have hex : PathExist fs src = true := by simp [PathExist, hsrc]
      have hdir : IsDir fs src = false := by simp [IsDir, hsrc]
      have hdel : DeleteFile fs src = .ok (fsErase fs src) := by
        simp [DeleteFile, hex, hdir]
      have hmv : MoveFile fs src src = .error (.notExist src) := by
        simp [MoveFile, hreg, hex, hdir, hdel, osRename, fsLookup_erase_self]
      rw [hmv] at hok; cases hok
    · cases hdln : fsLookup fs dst with
      | none =>
        have hex : PathExist fs dst = false := by simp [PathExist, hdln]
        have hmv : MoveFile fs src dst = .ok (fsInsert (fsErase fs src) dst
            (.file content fperm r)) := by
          simp [MoveFile, hreg, hex, osRename, hsrc, hdln]
        rw [hmv, Except.ok.injEq] at hok
        subst hok
        refine ⟨?_, fsLookup_insert_self _ _ _, ?_⟩
        · rw [fsLookup_insert_ne _ _ _ _ hsd, fsLookup_erase_self]
        · rw [md5Sum_eval _ dst content fperm r (fsLookup_insert_self _ _ _),
            md5Sum_eval fs src content fperm r hsrc]
      | some n =>
        cases n with
        | dir dp =>
          have hdir : IsDir fs dst = true := by simp [IsDir, hdln]
          have hex : PathExist fs dst = true := by simp [PathExist, hdln]
          have hmv : MoveFile fs src dst = .error (.isDirectory dst) := by
            simp [MoveFile, hreg, hex, hdir, osRename, hsrc, hdln]
          rw [hmv] at hok; cases hok
        | file c2 p2 r2 =>
          have hex : PathExist fs dst = true := by simp [PathExist, hdln]
          have hdir : IsDir fs dst = false := by simp [IsDir, hdln]
          have hdel : DeleteFile fs dst = .ok (fsErase fs dst) := by
            simp [DeleteFile, hex, hdir]
          have hsrce : fsLookup (fsErase fs dst) src =
              some (.file content fperm r) := by
            rw [fsLookup_erase_ne fs dst src hsd]; exact hsrc
          have hmv : MoveFile fs src dst = .ok (fsInsert
              (fsErase (fsErase fs dst) src) dst (.file content fperm r)) := by
            simp [MoveFile, hreg, hex, hdir, hdel, osRename, hsrce,
              fsLookup_erase_self]
          rw [hmv, Except.ok.injEq] at hok
          subst hok
          refine ⟨?_, fsLookup_insert_self _ _ _, ?_⟩
          · rw [fsLookup_insert_ne _ _ _ _ hsd, fsLookup_erase_self]
          · rw [md5Sum_eval _ dst content fperm r (fsLookup_insert_self _ _ _),
              md5Sum_eval fs src content fperm r hsrc]
        | special =>
          have hex : PathExist fs dst = true := by simp [PathExist, hdln]
          have hdir : IsDir fs dst = false := by simp [IsDir, hdln]
          have hdel : DeleteFile fs dst = .ok (fsErase fs dst) := by
            simp [DeleteFile, hex, hdir]
          have hsrce : fsLookup (fsErase fs dst) src =
              some (.file content fperm r) := by
            rw [fsLookup_erase_ne fs dst src hsd]; exact hsrc
          have hmv : MoveFile fs src dst = .ok (fsInsert
              (fsErase (fsErase fs dst) src) dst (.file content fperm r)) := by
            simp [MoveFile, hreg, hex, hdir, hdel, osRename, hsrce,
              fsLookup_erase_self]
          rw [hmv, Except.ok.injEq] at hok
          subst hok
          refine ⟨?_, fsLookup_insert_self _ _ _, ?_⟩
          · rw [fsLookup_insert_ne _ _ _ _ hsd, fsLookup_erase_self]
          · rw [md5Sum_eval _ dst content fperm r (fsLookup_insert_self _ _ _),
              md5Sum_eval fs src content fperm r hsrc]
  · intro hreg hex hdir
    have hdel : DeleteFile fs dst = .ok (fsErase fs dst) := by
      simp [DeleteFile, hex, hdir]
    simp [MoveFile, hreg, hex, hdir, hdel]
  · intro h; simp [MoveFile, h]

/-- C3 witness: moving `"s"` over the stale file `"t"`. -/
theorem moveFile_spec_witness :
    fsLookup [("t", Node.file [1] 420 true)] "s" = none ∧
    fsLookup [("t", Node.file [1] 420 true)] "t" =
      some (Node.file [1] 420 true) ∧
    Md5Sum [("t", Node.file [1] 420 true)] "t" =
      Md5Sum [("s", Node.file [1] 420 true), ("t", Node.file [2] 400 true)]
        "s" :=
  (moveFile_spec [("s", Node.file [1] 420 true),
    ("t", Node.file [2] 400 true)] "s" "t").1 [1] 420 true
    [("t", Node.file [1] 420 true)] rfl rfl

/-- C1 (amended): for every regular readable `src` and every non-existent
`dst` whose parent directory chain can be prepared — the parent is the
sentinel `"."`, or creating it succeeds (and the parent is not `dst`
itself) — `CopyFile` succeeds, afterwards `dst`'s content equals `src`'s
content so `Md5Sum src = Md5Sum dst`, and the copy streams through the
fixed 8 MiB buffer, stopping at end of stream. -/
theorem copyFile_correct (fs : FS) (src dst : String) (content : List Nat)
    (fperm : Nat)
    (hsrc : fsLookup fs src = some (.file content fperm true))
    (hdst : fsLookup fs dst = none)
    (hparent : filepathDir dst = "." ∨
      (exOk (CreateDirectory fs (filepathDir dst)) = true ∧
        filepathDir dst ≠ dst)) :
    ∃ fs2, CopyFile fs src dst = .ok fs2 ∧
      fsLookup fs2 dst = some (.file content 0o755 true) ∧
      fsLookup fs2 src = some (.file content fperm true) ∧
      Md5Sum fs2 src = Md5Sum fs2 dst ∧
      Md5Sum fs2 dst = md5Hex content ∧
      BufferSize = 8 * 1024 * 1024 := by
  have hne : src ≠ dst := ne_of_lookup_ne fs src dst (by rw [hsrc, hdst]; simp)
  by_cases hd : filepathDir dst = "."
  · have hopen := openFile_write_dot fs dst 0o755 hdst hd
    obtain ⟨hcp, hdst2, hother⟩ :=
      copyFile_ok_core fs fs src dst content fperm hsrc hdst hopen
    have hsrc2 := hother src hne
    rw [hsrc] at hsrc2
    refine ⟨_, hcp, hdst2, hsrc2, ?_, ?_, rfl⟩
    · rw [md5Sum_eval _ src content fperm true hsrc2,
        md5Sum_eval _ dst content 0o755 true hdst2]
    · rw [md5Sum_eval _ dst content 0o755 true hdst2]
      rfl
  · rcases hparent with hd2 | ⟨hok, hdp⟩
    · exact absurd hd2 hd
    · cases hcd : CreateDirectory fs (filepathDir dst) with
      | error e => rw [hcd] at hok; simp [exOk] at hok
      | ok fs1 =>
        obtain ⟨hopen, hdst1⟩ :=
          openFile_write_mkdir fs dst 0o755 fs1 hdst hd hdp hcd
        obtain ⟨hcp, hdst2, hother⟩ :=
          copyFile_ok_core fs fs1 src dst content fperm hsrc hdst hopen
        have hsrcm := createDirectory_keep_some fs (filepathDir dst) fs1
          src _ hcd hsrc
        have hsrc2 := hother src hne
        rw [hsrcm] at hsrc2
        refine ⟨_, hcp, hdst2, hsrc2, ?_, ?_, rfl⟩
        · rw [md5Sum_eval _ src content fperm true hsrc2,
            md5Sum_eval _ dst content 0o755 true hdst2]
        · rw [md5Sum_eval _ dst content 0o755 true hdst2]
          rfl

/-- C1 witness: copying the readable file `"s"` to the fresh bare filename
`"d"`. -/
theorem copyFile_correct_witness :
    ∃ fs2, CopyFile [("s", Node.file [7, 8] 420 true)] "s" "d" = .ok fs2 ∧
      fsLookup fs2 "d" = some (Node.file [7, 8] 0o755 true) ∧
      fsLookup fs2 "s" = some (Node.file [7, 8] 420 true) ∧
      Md5Sum fs2 "s" = Md5Sum fs2 "d" ∧
      Md5Sum fs2 "d" = md5Hex [7, 8] ∧
      BufferSize = 8 * 1024 * 1024 :=
  copyFile_correct [("s", Node.file [7, 8] 420 true)] "s" "d" [7, 8] 420 rfl
    rfl (Or.inl rfl)

/-- C1 counterexample: `"a"` is regular and readable and `"b/c"` does not
exist, yet `CopyFile` fails — as stated, without any assumption on the
parent of `dst`, the claim is false, because preparing the parent of
`"b/c"` runs into the regular file `"b"`. -/
theorem copyFile_correct_cex :
    fsLookup [("a", Node.file [104] 420 true), ("b", Node.file [] 420 true)]
      "a" = some (Node.file [104] 420 true) ∧
    fsLookup [("a", Node.file [104] 420 true), ("b", Node.file [] 420 true)]
      "b/c" = none ∧
    CopyFile [("a", Node.file [104] 420 true), ("b", Node.file [] 420 true)]
      "a" "b/c" = .error (.notADirectory "b") :=
  ⟨rfl, rfl, rfl⟩

/-- C5 (amended): when `src` is a regular readable file and `dst` already
exists, `CopyFile` fails with the destination-exists error (the error
return leaves `dst` unmodified — copy never overwrites); whenever `src` is
not a regular file `CopyFile` fails with the not-a-regular-file error, and
that check runs first. -/
theorem copyFile_error_spec (fs : FS) (src dst : String) :
    (∀ content fperm, fsLookup fs src = some (.file content fperm true) →
      PathExist fs dst = true →
      CopyFile fs src dst = .error (.destinationExists dst)) ∧
    (IsRegularFile fs src = false →
      CopyFile fs src dst = .error (.notRegularFile src)) := by
  constructor
  · intro content fperm hsrc hex
    have hreg : IsRegularFile fs src = true := by simp [IsRegularFile, hsrc]
    have hread := openFile_read_ok fs src content fperm 0o666 hsrc
    simp [CopyFile, hreg, hread, hex]
  · intro h; simp [CopyFile, h]

/-- C5 witness: copying onto the existing file `"t"`. -/
theorem copyFile_error_spec_witness :
    CopyFile [("s", Node.file [1] 420 true), ("t", Node.file [2] 420 true)]
      "s" "t" = .error (.destinationExists "t") :=
  (copyFile_error_spec [("s", Node.file [1] 420 true),
    ("t", Node.file [2] 420 true)] "s" "t").1 [1] 420 rfl rfl

/-- C5 counterexample: when `src` is not a regular file, `CopyFile` on an
existing `dst` reports the not-a-regular-file error, not the
destination-exists error the claim promises for every existing `dst`. -/
theorem copyFile_error_spec_cex :
    PathExist [("d", Node.dir 493), ("t", Node.file [] 420 true)] "t" =
      true ∧
    CopyFile [("d", Node.dir 493), ("t", Node.file [] 420 true)] "d" "t" =
      .error (.notRegularFile "d") ∧
    FsError.notRegularFile "d" ≠ FsError.destinationExists "t" :=
  ⟨rfl, rfl, by decide⟩

/-- C10 (amended): for every regular readable `src` and non-existent `dst`
whose parent directory (not the sentinel `"."` and not `dst` itself) does
not exist but can be created — no ancestor is occupied by a non-directory —
`CopyFile` creates the parent directory chain with permission `0o755`
before creating `dst`, because it opens `dst` through `OpenFile`. -/
theorem copyFile_creates_parents (fs : FS) (src dst : String)
    (content : List Nat) (fperm : Nat)
    (hsrc : fsLookup fs src = some (.file content fperm true))
    (hdst : fsLookup fs dst = none)
    (hd : filepathDir dst ≠ ".")
    (hdp : filepathDir dst ≠ dst)
    (hparent : fsLookup fs (filepathDir dst) = none)
    (hok : exOk (CreateDirectory fs (filepathDir dst)) = true) :
    ∃ fs2, CopyFile fs src dst = .ok fs2 ∧
      fsLookup fs2 (filepathDir dst) = some (.dir 0o755) ∧
      fsLookup fs2 dst = some (.file content 0o755 true) := by
  cases hcd : CreateDirectory fs (filepathDir dst) with
  | error e => rw [hcd] at hok; simp [exOk] at hok
  | ok fs1 =>
    obtain ⟨hopen, hdst1⟩ :=
      openFile_write_mkdir fs dst 0o755 fs1 hdst hd hdp hcd
    obtain ⟨hcp, hdst2, hother⟩ :=
      copyFile_ok_core fs fs1 src dst content fperm hsrc hdst hopen
    have hpar1 : fsLookup fs1 (filepathDir dst) = some (.dir 0o755) :=
      createDirectory_new_dir fs (filepathDir dst) fs1 hcd hparent
    refine ⟨_, hcp, ?_, hdst2⟩
    rw [hother (filepathDir dst) hdp]
    exact hpar1

/-- C10 witness: copying `"s"` to `"p/q"` when `"p"` does not exist
creates the directory `"p"` with permission `0o755`. -/
theorem copyFile_creates_parents_witness :
    ∃ fs2, CopyFile [("s", Node.file [3] 420 true)] "s" "p/q" = .ok fs2 ∧
      fsLookup fs2 (filepathDir "p/q") = some (Node.dir 0o755) ∧
      fsLookup fs2 "p/q" = some (Node.file [3] 0o755 true) :=
  copyFile_creates_parents [("s", Node.file [3] 420 true)] "s" "p/q" [3] 420
    rfl rfl (by decide) (by decide) rfl rfl

/-- C10 counterexample: the missing parent `"b/c"` of the non-existent
`"b/c/d"` cannot be created because the ancestor `"b"` is a regular file,
so `CopyFile` fails instead of creating the parent tree — the claim as
stated, with no assumption on the ancestors, is false. -/
theorem copyFile_creates_parents_cex :
    fsLookup [("a", Node.file [5] 420 true), ("b", Node.file [] 420 true)]
      "b/c/d" = none ∧
    filepathDir "b/c/d" = "b/c" ∧
    fsLookup [("a", Node.file [5] 420 true), ("b", Node.file [] 420 true)]
      "b/c" = none ∧
    CopyFile [("a", Node.file [5] 420 true), ("b", Node.file [] 420 true)]
      "a" "b/c/d" = .error (.notADirectory "b") :=
  ⟨rfl, rfl, rfl, rfl⟩

end FileUtil

